import Mathlib

/-!
Verification of the thinking-block integrity layer, signature cache,
token-refresh policy, error formatting and request-conversion fragments of
the antigravity-claude-proxy repository, as a shallow embedding in Lean 4.

Conventions of the embedding:
* JavaScript objects holding content blocks are modelled by the `Block`
  structure whose fields are `Option`-valued (a `none` field is an absent
  JS property).  `none` elements of a content array model JS `null`
  entries.
* JS string truthiness (`""` is falsy) is modelled by explicit `= ""`
  tests; object-field truthiness by `Option.isSome` / a `Bool` presence
  flag.
* `Date.now()` is passed explicitly as an `Int` parameter.
* SHA-256 hashes are modelled by injective tagged strings (`"h_" ++ s`,
  `"prefix_" ++ s`): the code relies on the hash only as a collision-free
  key.
* JS functions that would throw a `TypeError` when a content array holds a
  `null` element (`analyzeConversationState`'s helpers iterate with
  `block.type` accesses) are totalised: a `null` element matches no type
  test.  The dispatcher's validation rejects such inputs upstream.
-/

/-! ## JS string primitives -/

/-- Whitespace recognised by JavaScript `String.prototype.trim`
(restricted to the ASCII whitespace actually occurring in the data). -/
def isJsWhitespace (c : Char) : Bool :=
  c = ' ' || c = '\t' || c = '\n' || c = '\r' || c = '\x0b' || c = '\x0c'

/-- JavaScript `s.trim()`. -/
def jsTrim (s : String) : String :=
  ⟨((s.toList.dropWhile isJsWhitespace).reverse.dropWhile isJsWhitespace).reverse⟩

/-- JavaScript `s.slice(0, n)` (code-unit count modelled as characters). -/
def jsSlice (s : String) (n : Nat) : String :=
  ⟨s.toList.take n⟩

/-! ## Data model: content blocks and messages (src/format/thinking-utils.js) -/

/-- A JS content-block object.  Each field models the presence/value of the
JS property of the same name; `functionCall`/`functionResponse` record only
the (truthy) presence of the sub-object; `cacheControl` stands for the extra
properties (such as `cache_control`) that the sanitizers strip. -/
structure Block where
  type : Option String := none
  text : Option String := none
  thinking : Option String := none
  signature : Option String := none
  thought : Option Bool := none
  thoughtSignature : Option String := none
  data : Option String := none
  functionCall : Bool := false
  functionResponse : Bool := false
  cacheControl : Bool := false
  deriving Repr, DecidableEq

/-- The `content` property of a message: absent, a string, or an array of
(possibly null) blocks. -/
inductive MsgContent where
  | absent
  | str (s : String)
  | arr (items : List (Option Block))
  deriving Repr, DecidableEq

/-- A JS message object with `role`, `content` and (Gemini style) `parts`. -/
structure Message where
  role : String
  content : MsgContent := .absent
  parts : Option (List (Option Block)) := none
  deriving Repr, DecidableEq

instance : Inhabited Message := ⟨⟨"", .absent, none⟩⟩

/-- Modelled from the spec: `constants.js` is not under `src/`; the spec
fixes the minimum signature length invariant at 50 characters
("signatures are ≥50 chars"), matching the hard-coded 50 in
`src/cli/accounts.js`. -/
def MIN_SIGNATURE_LENGTH : Nat := 50

/-- Source `isThinkingPart` (thinking-utils.js:15). -/
def isThinkingPart (part : Block) : Bool :=
  part.type == some "thinking" ||
    part.type == some "redacted_thinking" ||
    part.thinking.isSome ||
    part.thought == some true

/-- Source `isThinkingPart` lifted to an array element; a `null` element would
throw in JS and is totalised to `false`. -/
def itemIsThinkingPart : Option Block → Bool
  | some b => isThinkingPart b
  | none => false

/-- Truthy string of length ≥ `MIN_SIGNATURE_LENGTH`
(`sig && sig.length >= MIN_SIGNATURE_LENGTH`). -/
def sigLenOk : Option String → Bool
  | some s => MIN_SIGNATURE_LENGTH ≤ s.length
  | none => false

/-- Source `sanitizeAnthropicThinkingBlock` (thinking-utils.js:57): keep only the
allowed fields of Anthropic-style thinking blocks. -/
def sanitizeAnthropicThinkingBlock (block : Block) : Block :=
  if block.type == some "thinking" then
    { type := some "thinking", thinking := block.thinking,
      signature := block.signature }
  else if block.type == some "redacted_thinking" then
    { type := some "redacted_thinking", data := block.data }
  else
    block

/-! ## reorderAssistantContent (thinking-utils.js:253) -/

/-- A block is in the thinking bucket of `reorderAssistantContent`. -/
def isThinkClass (b : Block) : Bool :=
  b.type == some "thinking" || b.type == some "redacted_thinking"

/-- A block is in the tool_use bucket. -/
def isToolUseType (b : Block) : Bool :=
  b.type == some "tool_use"

/-- A block is kept in the middle (text) bucket: a `text` block with truthy
text whose trim is non-empty, or any block of a type outside the three
buckets. -/
def keepAsText (b : Block) : Bool :=
  if isThinkClass b then false
  else if isToolUseType b then false
  else if b.type == some "text" then
    match b.text with
    | some s => s != "" && 0 < (jsTrim s).length
    | none => false
  else true

/-- The general (length ≠ 1) path of `reorderAssistantContent`: drop null
blocks, stable-partition into `[thinking..., text..., tool_use...]`,
sanitizing the thinking blocks and dropping empty text blocks. -/
def reorderCore (content : List (Option Block)) : List (Option Block) :=
  let blocks := content.filterMap id
  let thinkingBlocks := (blocks.filter isThinkClass).map sanitizeAnthropicThinkingBlock
  let textBlocks := blocks.filter keepAsText
  let toolUseBlocks := blocks.filter isToolUseType
  (thinkingBlocks ++ textBlocks ++ toolUseBlocks).map some

/-- Source `reorderAssistantContent` (thinking-utils.js:253).  The single-element
array is returned as-is apart from sanitizing a thinking block. -/
def reorderAssistantContent (content : List (Option Block)) : List (Option Block) :=
  match content with
  | [item] =>
    match item with
    | some block =>
      if isThinkClass block then [some (sanitizeAnthropicThinkingBlock block)]
      else [item]
    | none => [none]
  | _ => reorderCore content

/-! ## Conversation-state analysis (thinking-utils.js:321-447) -/

/-- JS `message.content || message.parts || []`: the effective content an
inspection helper sees.  A non-empty string is truthy; `""`, like an absent
`content`, falls through to `parts`, then to `[]`. -/
def contentOrParts (m : Message) : MsgContent :=
  match m.content with
  | .str s =>
    if s = "" then
      match m.parts with
      | some l => .arr l
      | none => .arr []
    else .str s
  | .arr l => .arr l
  | .absent =>
    match m.parts with
    | some l => .arr l
    | none => .arr []

/-- One array element satisfies `block.type === 'tool_use' || block.functionCall`. -/
def itemIsToolUse : Option Block → Bool
  | some b => b.type == some "tool_use" || b.functionCall
  | none => false

/-- One array element satisfies `block.type === 'tool_result' || block.functionResponse`. -/
def itemIsToolResult : Option Block → Bool
  | some b => b.type == some "tool_result" || b.functionResponse
  | none => false

/-- Source `messageHasToolUse` (thinking-utils.js:339). -/
def messageHasToolUse (m : Message) : Bool :=
  match contentOrParts m with
  | .arr l => l.any itemIsToolUse
  | _ => false

/-- Source `messageHasToolResult` (thinking-utils.js:352). -/
def messageHasToolResult (m : Message) : Bool :=
  match contentOrParts m with
  | .arr l => l.any itemIsToolResult
  | _ => false

/-- Source `messageHasValidThinking` (thinking-utils.js:321): some thinking part
carries a valid `signature` or `thoughtSignature`. -/
def messageHasValidThinking (m : Message) : Bool :=
  match contentOrParts m with
  | .arr l =>
    l.any fun it =>
      match it with
      | some b => isThinkingPart b && (sigLenOk b.signature || sigLenOk b.thoughtSignature)
      | none => false
  | _ => false

/-- Source `isPlainUserMessage` (thinking-utils.js:365): a user message whose
content is a plain string or an array without tool_result blocks. -/
def isPlainUserMessage (m : Message) : Bool :=
  m.role == "user" &&
    match contentOrParts m with
    | .str _ => true
    | .arr l => !(l.any itemIsToolResult)
    | .absent => false

/-- JS `messages[i].role === 'assistant' || messages[i].role === 'model'`. -/
def isAssistantRole (m : Message) : Bool :=
  m.role == "assistant" || m.role == "model"

/-- The backwards scan for the last assistant message
(thinking-utils.js:391). -/
def findLastAssistantIdx (msgs : List Message) : Option Nat :=
  (List.range msgs.length).reverse.find? fun i => isAssistantRole (msgs.getD i default)

/-- Result record of `analyzeConversationState`; `lastAssistantIdx` is
`none` on the early-return paths, where the JS object omits the field. -/
structure ConvState where
  inToolLoop : Bool
  interruptedTool : Bool
  turnHasThinking : Bool
  toolResultCount : Nat
  lastAssistantIdx : Option Nat
  deriving Repr, DecidableEq

/-- Source `analyzeConversationState` (thinking-utils.js:384). -/
def analyzeConversationState (msgs : List Message) : ConvState :=
  if msgs.isEmpty then ⟨false, false, false, 0, none⟩
  else
    match findLastAssistantIdx msgs with
    | none => ⟨false, false, false, 0, none⟩
    | some i =>
      let lastAssistant := msgs.getD i default
      let hasToolUse := messageHasToolUse lastAssistant
      let hasThinking := messageHasValidThinking lastAssistant
      let tail := msgs.drop (i + 1)
      let toolResultCount := (tail.filter messageHasToolResult).length
      let hasPlainUserMessageAfter := tail.any isPlainUserMessage
      { inToolLoop := hasToolUse && decide (0 < toolResultCount),
        interruptedTool := hasToolUse && toolResultCount == 0 && hasPlainUserMessageAfter,
        turnHasThinking := hasThinking,
        toolResultCount := toolResultCount,
        lastAssistantIdx := some i }

/-- Source `needsThinkingRecovery` (thinking-utils.js:443). -/
def needsThinkingRecovery (msgs : List Message) : Bool :=
  let state := analyzeConversationState msgs
  (state.inToolLoop || state.interruptedTool) && !state.turnHasThinking

/-- The per-message body of `stripAllThinkingBlocks`
(thinking-utils.js:456): filter thinking parts out of
`msg.content || msg.parts` when that is an array, substituting an empty
text block when nothing is left. -/
def stripMsg (m : Message) : Message :=
  let eff : Option (List (Option Block)) :=
    match m.content with
    | .arr l => some l
    | .str s =>
      if s = "" then m.parts else none
    | .absent => m.parts
  match eff with
  | none => m
  | some l =>
    let filtered := l.filter fun it => !itemIsThinkingPart it
    let contentTruthy :=
      match m.content with
      | .arr _ => true
      | .str s => s ≠ ""
      | .absent => false
    if contentTruthy then
      { m with content := .arr (if 0 < filtered.length then filtered
                                else [some { type := some "text", text := some "" }]) }
    else if m.parts.isSome then
      { m with parts := some (if 0 < filtered.length then filtered
                              else [some { text := some "" }]) }
    else m

/-- Source `stripAllThinkingBlocks` (thinking-utils.js:456). -/
def stripAllThinkingBlocks (msgs : List Message) : List Message :=
  msgs.map stripMsg

/-- Synthetic assistant text message used by the repair pass. -/
def mkAssistantTextMsg (t : String) : Message :=
  { role := "assistant", content := .arr [some { type := some "text", text := some t }] }

/-- Synthetic user text message used by the repair pass. -/
def mkUserTextMsg (t : String) : Message :=
  { role := "user", content := .arr [some { type := some "text", text := some t }] }

/-- Source `closeToolLoopForThinking` (thinking-utils.js:484). -/
def closeToolLoopForThinking (msgs : List Message) : List Message :=
  let state := analyzeConversationState msgs
  if !state.inToolLoop && !state.interruptedTool then msgs
  else
    let modified := stripAllThinkingBlocks msgs
    if state.interruptedTool then
      let insertIdx := state.lastAssistantIdx.getD 0 + 1
      modified.take insertIdx ++ mkAssistantTextMsg "[Tool call was interrupted.]" :: modified.drop insertIdx
    else
      let syntheticText :=
        if state.toolResultCount == 1 then "[Tool execution completed.]"
        else "[" ++ toString state.toolResultCount ++ " tool executions completed.]"
      modified ++ [mkAssistantTextMsg syntheticText, mkUserTextMsg "[Continue]"]

/-- Modelled from the spec: the request dispatcher that sequences the
thinking-integrity passes is not under `src/`.  Spec §4.6/§4.9 apply the
tool-loop closure exactly when
`(inToolLoop ∨ interruptedTool) ∧ ¬hasValidThinking`, which is
`needsThinkingRecovery` of the source. -/
def toolLoopClosurePass (msgs : List Message) : List Message :=
  if needsThinkingRecovery msgs then closeToolLoopForThinking msgs else msgs

/-- Does any message of the history carry the synthetic
"[Tool call was interrupted.]" text block? -/
def containsInterruptSynthetic (msgs : List Message) : Bool :=
  msgs.any fun m =>
    match m.content with
    | .arr l =>
      l.any fun it =>
        match it with
        | some b => b.text == some "[Tool call was interrupted.]"
        | none => false
    | _ => false

/-! ## Thinking-signature cache (src/cli/accounts.js:520-660) -/

/-- Cache TTL: 2 hours in milliseconds. -/
def THINKING_CACHE_TTL_MS : Int := 2 * 60 * 60 * 1000

/-- Maximum cache size. -/
def MAX_CACHE_SIZE : Nat := 500

/-- One cache entry: `{ signature, timestamp, preview }`. -/
structure CacheEntry where
  signature : String
  timestamp : Int
  preview : String
  deriving Repr, DecidableEq

/-- The JS `Map` keyed by hash strings, as an association list without
duplicate keys (insertion order preserved, as in a JS `Map`). -/
abbrev SigCache := List (String × CacheEntry)

/-- JS `map.get(k)`. -/
def mapGet (c : SigCache) (k : String) : Option CacheEntry :=
  (c.find? fun kv => kv.1 == k).map Prod.snd

/-- JS `map.set(k, v)`: replace in place, or append. -/
def mapSet (c : SigCache) (k : String) (v : CacheEntry) : SigCache :=
  match c with
  | [] => [(k, v)]
  | kv :: rest => if kv.1 == k then (k, v) :: rest else kv :: mapSet rest k v

/-- JS `map.delete(k)`. -/
def mapDelete (c : SigCache) (k : String) : SigCache :=
  c.filter fun kv => kv.1 != k

/-- Source `normalizeContent` (accounts.js:546): trim only (the comment says
"normalize whitespace" but internal whitespace is untouched). -/
def normalizeContent (content : String) : String :=
  jsTrim content

/-- Source `hashContent` (accounts.js): SHA-256 of the normalized content,
modelled by an injective tag. -/
def hashContent (content : String) : String :=
  "h_" ++ normalizeContent content

/-- Source `hashPrefix` (accounts.js): `'prefix_' + sha256(normalized.slice(0, 500))`,
modelled by an injective tag. -/
def hashPrefix500 (content : String) : String :=
  "prefix_" ++ jsSlice (normalizeContent content) 500

/-- Stable insertion of an entry into a timestamp-ascending list (model of
the JS stable `sort((a, b) => a.timestamp - b.timestamp)`). -/
def insertByTs (x : String × CacheEntry) : SigCache → SigCache
  | [] => [x]
  | y :: ys =>
    if y.2.timestamp ≤ x.2.timestamp then y :: insertByTs x ys
    else x :: y :: ys

/-- Sort a cache snapshot by ascending timestamp (stable). -/
def sortByTs (c : SigCache) : SigCache :=
  c.foldr insertByTs []

/-- Source `cleanupCache` (accounts.js): drop TTL-expired entries; if still at the
cap, drop the oldest `MAX_CACHE_SIZE / 2` entries. -/
def cleanupCache (now : Int) (c : SigCache) : SigCache :=
  let c1 := c.filter fun kv => !(now - kv.2.timestamp > THINKING_CACHE_TTL_MS)
  if MAX_CACHE_SIZE ≤ c1.length then
    let toRemove := ((sortByTs c1).take (MAX_CACHE_SIZE / 2)).map Prod.fst
    c1.filter fun kv => !(toRemove.contains kv.1)
  else c1

/-- Source `cacheThinkingSignature` (accounts.js:578): record a signature under
both the full-content hash and the 500-char-prefix hash. -/
def cacheThinkingSignature (c : SigCache) (now : Int)
    (thinkingContent signature : String) : SigCache :=
  if thinkingContent = "" || signature = "" then c
  else if signature.length < 50 then c
  else
    let hash := hashContent thinkingContent
    let prefixHash := hashPrefix500 thinkingContent
    let preview := jsSlice (normalizeContent thinkingContent) 60
    let c' := if MAX_CACHE_SIZE ≤ c.length then cleanupCache now c else c
    let entry : CacheEntry := ⟨signature, now, preview ++ "..."⟩
    mapSet (mapSet c' hash entry) prefixHash entry

/-- Source `getCachedThinkingSignature` (accounts.js:609): full hash first, then
prefix hash; on TTL expiry delete the full-hash key and return null.
Returns the result together with the possibly mutated cache. -/
def getCachedThinkingSignature (c : SigCache) (now : Int)
    (thinkingContent : String) : Option String × SigCache :=
  if thinkingContent = "" then (none, c)
  else
    let hash := hashContent thinkingContent
    let entry :=
      match mapGet c hash with
      | some e => some e
      | none => mapGet c (hashPrefix500 thinkingContent)
    match entry with
    | none => (none, c)
    | some e =>
      if now - e.timestamp > THINKING_CACHE_TTL_MS then (none, mapDelete c hash)
      else (some e.signature, c)

/-! ## Proactive token refresh (src/utils/proactive-token-refresh.js) -/

/-- Constant `REFRESH_BUFFER_MS` (env override absent: 5 minutes). -/
def REFRESH_BUFFER_MS : Int := 5 * 60 * 1000

/-- Constant `BACKOFF_BASE_MS` (1 minute). -/
def BACKOFF_BASE_MS : Nat := 60 * 1000

/-- Constant `BACKOFF_MAX_MS` (15 minutes). -/
def BACKOFF_MAX_MS : Nat := 15 * 60 * 1000

/-- Constant `BACKOFF_MULTIPLIER`. -/
def BACKOFF_MULTIPLIER : Nat := 2

/-- Per-account token metadata tracked by the registry. -/
structure TokenMetadata where
  email : String
  issuedAt : Int
  expiresAt : Int
  expiresIn : Int
  refreshScheduled : Bool
  lastFailedAt : Option Int
  consecutiveFailures : Nat
  deriving Repr, DecidableEq

/-- The `tokenMetadata` map, email-keyed. -/
abbrev MetaMap := List (String × TokenMetadata)

/-- JS `tokenMetadata.get(email)`. -/
def metaGet (m : MetaMap) (email : String) : Option TokenMetadata :=
  (m.find? fun kv => kv.1 == email).map Prod.snd

/-- Source `shouldRefreshToken` (proactive-token-refresh.js:129): untracked email
is `false`; otherwise `expiresAt - now ≤ REFRESH_BUFFER_MS`.  No backoff
test occurs here. -/
def shouldRefreshToken (m : MetaMap) (now : Int) (email : String) : Bool :=
  match metaGet m email with
  | none => false
  | some md => md.expiresAt - now ≤ REFRESH_BUFFER_MS

/-- Source `calculateBackoff` (proactive-token-refresh.js:205). -/
def calculateBackoff (failures : Nat) : Nat :=
  if failures = 0 then 0
  else min (BACKOFF_BASE_MS * BACKOFF_MULTIPLIER ^ (failures - 1)) BACKOFF_MAX_MS

/-- The backoff gate of `backgroundRefreshCheck`
(proactive-token-refresh.js:228-239): the window has elapsed unless a
recorded failure is younger than the computed backoff. -/
def backoffElapsed (md : TokenMetadata) (now : Int) : Bool :=
  match md.lastFailedAt with
  | none => true
  | some t =>
    if 0 < md.consecutiveFailures then
      !(now - t < (calculateBackoff md.consecutiveFailures : Int))
    else true

/-! ## Error formatting (src/utils/error-utils.js) -/

/-- The internal typed errors of `errors.js` (declared outside `src/`;
`formatOpenAIError` distinguishes them by `instanceof`, modelled as
disjoint variants).  `api` carries `errorType`/`statusCode` fields. -/
inductive ProxyError where
  | rateLimit (message : String)
  | auth (message : String)
  | noAccounts (message : String)
  | maxRetries (message : String)
  | api (message : String) (errorType : Option String) (statusCode : Option Nat)
  | plain (message : String)
  deriving Repr, DecidableEq

/-- The wire error body `{ error: { message, type, code, param: null } }`. -/
structure WireError where
  message : String
  type : String
  code : Nat
  deriving Repr, DecidableEq

/-- Error type strings of `ErrorTypes` (error-utils.js:12). -/
def ET_AUTHENTICATION : String := "authentication_error"

def ET_RATE_LIMIT : String := "rate_limit_error"

def ET_API_ERROR : String := "api_error"

def ET_OVERLOADED : String := "server_overloaded_error"

/-- Source `formatOpenAIError` (error-utils.js:28) on a typed error, with the
default `type`/`code` arguments. -/
def formatOpenAIError (error : ProxyError)
    (type : String := ET_API_ERROR) (code : Nat := 500) : WireError :=
  match error with
  | .rateLimit msg => ⟨msg, ET_RATE_LIMIT, 429⟩
  | .auth msg => ⟨msg, ET_AUTHENTICATION, 401⟩
  | .noAccounts msg => ⟨msg, ET_OVERLOADED, 503⟩
  | .maxRetries msg => ⟨msg, ET_API_ERROR, 502⟩
  | .api msg et sc =>
    ⟨msg, match et with | some t => if t = "" then ET_API_ERROR else t | none => ET_API_ERROR,
      match sc with | some n => if n = 0 then 500 else n | none => 500⟩
  | .plain msg => ⟨msg, type, code⟩

/-! ## Thinking config of the request converter (src/format/openai-request-converter.js:174-187) -/

/-- Model family as classified by `getModelFamily` (model-utils.js, outside
`src/`); the converter only branches on these four cases, so the family is
taken as an abstract input. -/
inductive ModelFamily where
  | claude
  | gemini
  | gpt
  | other
  deriving Repr, DecidableEq

/-- The `thinkingConfig` object: the source writes either the snake_case
`include_thoughts` key (Claude branch) or the camelCase `includeThoughts`
and `thinkingBudget` keys (Gemini/GPT branch). -/
structure ThinkingCfg where
  include_thoughts : Option Bool := none
  includeThoughts : Option Bool := none
  thinkingBudget : Option Nat := none
  deriving Repr, DecidableEq

/-- The slice of `generationConfig` the thinking section touches. -/
structure GenCfg where
  maxOutputTokens : Option Nat := none
  thinkingConfig : Option ThinkingCfg := none
  deriving Repr, DecidableEq

/-- The Gemini/GPT-branch thinking config object
`{ includeThoughts: true, thinkingBudget: 16000 }`. -/
def gemThinkingCfg : ThinkingCfg :=
  { includeThoughts := some true, thinkingBudget := some 16000 }

/-- The `if (isThinking) { ... }` section of `convertOpenAIToGoogle`
(openai-request-converter.js:174-187). -/
def applyThinkingCfg (family : ModelFamily) (isThinking : Bool) (gc : GenCfg) : GenCfg :=
  if isThinking then
    match family with
    | .claude =>
      { gc with thinkingConfig := some ({ include_thoughts := some true } : ThinkingCfg) }
    | .gemini =>
      { gc with thinkingConfig := some gemThinkingCfg }
    | .gpt =>
      { gc with thinkingConfig := some gemThinkingCfg }
    | .other => gc
  else gc

/-! ## Concrete fixtures for witnesses and counterexamples -/

/-- A 50-character signature. -/
def sig50 : String := "SSSSSSSSSSSSSSSSSSSSSSSSSSSSSSSSSSSSSSSSSSSSSSSSSS"

/-- A bare `tool_use` block. -/
def toolUseBlock : Block := { type := some "tool_use" }

/-- A bare `tool_result` block. -/
def toolResultBlock : Block := { type := some "tool_result" }

/-- A validly signed thinking block. -/
def signedThinkingBlock : Block :=
  { type := some "thinking", thinking := some "xyz", signature := some sig50 }

/-- Metadata of an account that failed a refresh just now (backoff window
open) while its token is about to expire. -/
def c6meta : TokenMetadata :=
  { email := "a@x", issuedAt := 0, expiresAt := 100000, expiresIn := 3600,
    refreshScheduled := false, lastFailedAt := some 0, consecutiveFailures := 1 }

/-! ## Claim theorems -/

/-- C9: for `n` consecutive refresh failures the backoff delay is 0 ms at
`n = 0` and `min(60000 · 2^(n-1), 900000)` ms for `n ≥ 1`. -/
theorem calculateBackoff_formula (n : Nat) :
    calculateBackoff n = if n = 0 then 0 else min (60000 * 2 ^ (n - 1)) 900000 := by
  unfold calculateBackoff BACKOFF_BASE_MS BACKOFF_MULTIPLIER BACKOFF_MAX_MS
  norm_num

/-- C9 witness: concrete evaluations at 0 and 3 failures. -/
theorem calculateBackoff_formula_witness :
    calculateBackoff 0 = 0 ∧ calculateBackoff 3 = min (60000 * 2 ^ 2) 900000 := by
  exact ⟨calculateBackoff_formula 0, calculateBackoff_formula 3⟩

/-- C8: the wire error of each internal typed error carries the taxonomy's
status code and type: RateLimitError → 429 `rate_limit_error`, AuthError →
401 `authentication_error`, NoAccountsError → 503, MaxRetriesError → 502. -/
theorem formatOpenAIError_taxonomy (msg : String) :
    (formatOpenAIError (.rateLimit msg)).code = 429 ∧
    (formatOpenAIError (.rateLimit msg)).type = ET_RATE_LIMIT ∧
    (formatOpenAIError (.auth msg)).code = 401 ∧
    (formatOpenAIError (.auth msg)).type = ET_AUTHENTICATION ∧
    (formatOpenAIError (.noAccounts msg)).code = 503 ∧
    (formatOpenAIError (.maxRetries msg)).code = 502 := by
  refine ⟨rfl, rfl, rfl, rfl, rfl, rfl⟩

/-- C10: `analyzeConversationState` never reports `inToolLoop` and
`interruptedTool` both true: the former needs a positive tool_result count
after the last assistant message, the latter a zero count. -/
theorem analyze_state_mutually_exclusive (msgs : List Message) :
    ((analyzeConversationState msgs).inToolLoop &&
      (analyzeConversationState msgs).interruptedTool) = false := by
  unfold analyzeConversationState
  split
  · rfl
  split
  · rfl
  rename_i i _
  dsimp only
  rcases Nat.eq_zero_or_pos ((msgs.drop (i + 1)).filter messageHasToolResult).length with h | h
  · simp [h]
  · simp [h, Nat.pos_iff_ne_zero.mp h]

/-- C6 counterexample: an account whose token expires within the buffer but
whose last refresh failure was just now (backoff window still open):
`shouldRefreshToken` nevertheless returns `true`, refuting the claimed
"and the exponential-backoff window has elapsed" conjunct. -/
theorem shouldRefreshToken_ignores_backoff_cex :
    shouldRefreshToken [("a@x", c6meta)] 0 "a@x" = true ∧
      backoffElapsed c6meta 0 = false ∧
      c6meta.expiresAt - 0 ≤ REFRESH_BUFFER_MS := by
  decide

/-- C6 (amended): `shouldRefreshToken` is true exactly when the email is
tracked and `expiresAt - now ≤ REFRESH_BUFFER_MS`; the backoff window is
not consulted here (it gates only the background refresh loop). -/
theorem shouldRefreshToken_spec (m : MetaMap) (now : Int) (email : String) :
    shouldRefreshToken m now email = true ↔
      ∃ md, metaGet m email = some md ∧ md.expiresAt - now ≤ REFRESH_BUFFER_MS := by
  unfold shouldRefreshToken
  cases h : metaGet m email <;> simp [h]

/-- C5 counterexample: for a Claude-family thinking model the converter
writes the snake_case key `include_thoughts` and leaves the camelCase
`includeThoughts` unset, refuting "sets
`generationConfig.thinkingConfig.includeThoughts = true`" for that family. -/
theorem applyThinkingCfg_claude_cex :
    (applyThinkingCfg .claude true {}).thinkingConfig =
        some ({ include_thoughts := some true } : ThinkingCfg) ∧
      ((applyThinkingCfg .claude true {}).thinkingConfig.map ThinkingCfg.includeThoughts) =
        some none := by
  decide

/-- C5 (amended): a Claude-family thinking model gets
`thinkingConfig.include_thoughts = true` (snake_case, no budget); Gemini-
and GPT-family thinking models get `includeThoughts = true` and
`thinkingBudget = 16000`; any other family leaves `thinkingConfig`
untouched. -/
theorem applyThinkingCfg_spec (gc : GenCfg) :
    (applyThinkingCfg .claude true gc).thinkingConfig =
        some ({ include_thoughts := some true } : ThinkingCfg) ∧
      (applyThinkingCfg .gemini true gc).thinkingConfig =
        some ({ includeThoughts := some true, thinkingBudget := some 16000 } : ThinkingCfg) ∧
      (applyThinkingCfg .gpt true gc).thinkingConfig =
        some ({ includeThoughts := some true, thinkingBudget := some 16000 } : ThinkingCfg) ∧
      (applyThinkingCfg .other true gc).thinkingConfig = gc.thinkingConfig := by
  refine ⟨rfl, rfl, rfl, rfl⟩

/-! ### Cache helper lemmas -/

/-- String concatenation is left-cancellative. -/
theorem str_append_left_cancel {p x y : String} (h : p ++ x = p ++ y) : x = y := by
  have h2 := congrArg String.data h
  simp only [String.data_append] at h2
  exact String.ext (List.append_cancel_left h2)

/-- Full-content keys and prefix keys never collide. -/
theorem hashKey_tag_ne (x y : String) : ("h_" ++ x) ≠ ("prefix_" ++ y) := by
  intro h
  have h2 := congrArg String.data h
  simp at h2

/-- A string of length ≥ 50 is non-empty. -/
theorem length_ge_50_ne_empty {s : String} (hs : 50 ≤ s.length) : s ≠ "" := by
  intro h
  subst h
  simp at hs

/-- Recording on an empty cache then looking up any non-empty content whose
normalized 500-char prefix matches the recorded content yields the recorded
signature while fresh and nothing once expired. -/
theorem lookup_after_record (t t' s : String) (n1 n2 : Int)
    (ht : t ≠ "") (ht' : t' ≠ "") (hs : 50 ≤ s.length)
    (hpfx : jsSlice (jsTrim t') 500 = jsSlice (jsTrim t) 500) :
    (getCachedThinkingSignature (cacheThinkingSignature [] n1 t s) n2 t').1 =
      if THINKING_CACHE_TTL_MS < n2 - n1 then none else some s := by
  have hs' : s ≠ "" := length_ge_50_ne_empty hs
  have hlt : ¬ s.length < 50 := by omega
  have hne : ("h_" ++ jsTrim t) ≠ ("prefix_" ++ jsSlice (jsTrim t) 500) :=
    hashKey_tag_ne _ _
  have hc1 : cacheThinkingSignature [] n1 t s =
      [("h_" ++ jsTrim t, ⟨s, n1, jsSlice (jsTrim t) 60 ++ "..."⟩),
       ("prefix_" ++ jsSlice (jsTrim t) 500, ⟨s, n1, jsSlice (jsTrim t) 60 ++ "..."⟩)] := by
    unfold cacheThinkingSignature
    simp [ht, hs', hlt, MAX_CACHE_SIZE, mapSet, hashContent, hashPrefix500,
      normalizeContent, beq_iff_eq, hne]
  rw [hc1]
  unfold getCachedThinkingSignature
  by_cases heq : jsTrim t' = jsTrim t
  · simp [ht', mapGet, hashContent, hashPrefix500, normalizeContent, heq, beq_iff_eq]
    split <;> rfl
  · have hfull : ("h_" ++ jsTrim t) ≠ ("h_" ++ jsTrim t') := by
      intro h
      exact heq (str_append_left_cancel h).symm
    have htag : ("prefix_" ++ jsSlice (jsTrim t) 500) ≠ ("h_" ++ jsTrim t') :=
      fun h => hashKey_tag_ne _ _ h.symm
    simp [ht', mapGet, hashContent, hashPrefix500, normalizeContent, beq_iff_eq,
      hfull, htag, hpfx, List.find?_cons, hne]
    split <;> rfl

/-- C3 counterexample: record the whitespace-only text `" "` (truthy in JS,
normalizing to `""`); the input `""` has the same normalized 500-char
prefix, yet the lookup returns `nil` because of the falsy-input guard,
refuting "for any input whose normalized first 500 characters equal those
of t". -/
theorem sigCache_empty_input_cex :
    (getCachedThinkingSignature (cacheThinkingSignature [] 0 " " sig50) 0 "").1 = none ∧
      jsSlice (jsTrim "") 500 = jsSlice (jsTrim " ") 500 ∧
      50 ≤ sig50.length ∧ (0 : Int) - 0 ≤ THINKING_CACHE_TTL_MS := by
  decide

/-- C3 (amended): for a recorded pair `(t, s)` with `t` truthy and
`|s| ≥ 50`, a lookup of any NON-EMPTY input whose normalized 500-char
prefix equals that of `t` (which subsumes full normalized equality, tried
first) returns `s` within the TTL and `nil` after expiry. -/
theorem sigCache_lookup_spec (t t' s : String) (n1 n2 : Int)
    (ht : t ≠ "") (ht' : t' ≠ "") (hs : 50 ≤ s.length)
    (hpfx : jsSlice (jsTrim t') 500 = jsSlice (jsTrim t) 500) :
    (n2 - n1 ≤ THINKING_CACHE_TTL_MS →
        (getCachedThinkingSignature (cacheThinkingSignature [] n1 t s) n2 t').1 = some s) ∧
      (THINKING_CACHE_TTL_MS < n2 - n1 →
        (getCachedThinkingSignature (cacheThinkingSignature [] n1 t s) n2 t').1 = none) := by
  have h := lookup_after_record t t' s n1 n2 ht ht' hs hpfx
  constructor
  · intro hle
    rw [h, if_neg (by omega)]
  · intro hgt
    rw [h, if_pos hgt]

/-- C3 witness: a concrete record/lookup pair at matching prefix. -/
theorem sigCache_lookup_spec_witness :
    ((0 : Int) - 0 ≤ THINKING_CACHE_TTL_MS →
        (getCachedThinkingSignature (cacheThinkingSignature [] 0 "abc" sig50) 0 " abc ").1 =
          some sig50) ∧
      (THINKING_CACHE_TTL_MS < (0 : Int) - 0 →
        (getCachedThinkingSignature (cacheThinkingSignature [] 0 "abc" sig50) 0 " abc ").1 =
          none) :=
  sigCache_lookup_spec "abc" " abc " sig50 0 0 (by decide) (by decide) (by decide) (by decide)

/-- C4 counterexample: `normalizeContent` only trims — internal whitespace
is not collapsed — so `"a b"`, which equals the recorded `"a  b"` up to
collapsing internal whitespace, misses the cache. -/
theorem normalize_no_collapse_cex :
    normalizeContent "a  b" = "a  b" ∧
      (getCachedThinkingSignature (cacheThinkingSignature [] 0 "a  b" sig50) 0 "a b").1 = none ∧
      50 ≤ sig50.length ∧ (0 : Int) - 0 ≤ THINKING_CACHE_TTL_MS := by
  decide

/-- C4 (amended): the record operation normalizes by trimming only, so any
non-empty `t'` equal to `t` up to leading/trailing whitespace hits the
cache within the TTL. -/
theorem sigCache_trim_normalization (t t' s : String) (n1 n2 : Int)
    (ht : t ≠ "") (ht' : t' ≠ "") (hs : 50 ≤ s.length)
    (htrim : jsTrim t' = jsTrim t) (httl : n2 - n1 ≤ THINKING_CACHE_TTL_MS) :
    (getCachedThinkingSignature (cacheThinkingSignature [] n1 t s) n2 t').1 = some s := by
  have h := lookup_after_record t t' s n1 n2 ht ht' hs (by rw [htrim])
  rw [h, if_neg (by omega)]

/-- C4 witness: a concrete whitespace-padded replay hits the cache. -/
theorem sigCache_trim_normalization_witness :
    (getCachedThinkingSignature (cacheThinkingSignature [] 0 "a b" sig50) 7200000 "  a b ").1 =
      some sig50 :=
  sigCache_trim_normalization "a b" "  a b " sig50 0 7200000 (by decide) (by decide)
    (by decide) (by decide) (by decide)

/-! ### Conversation-state helper lemmas -/

/-- A plain user message has role `user`, hence is not an assistant. -/
theorem plain_user_not_assistant {u : Message} (hu : isPlainUserMessage u = true) :
    isAssistantRole u = false := by
  unfold isPlainUserMessage at hu
  unfold isAssistantRole
  have hrole : u.role = "user" := by
    by_cases h : u.role == "user"
    · exact beq_iff_eq.mp h
    · simp [h] at hu
  simp [hrole]

/-- A plain user message has no tool_result blocks. -/
theorem plain_user_no_toolresult {u : Message} (hu : isPlainUserMessage u = true) :
    messageHasToolResult u = false := by
  unfold isPlainUserMessage at hu
  unfold messageHasToolResult
  cases h : contentOrParts u with
  | absent => rfl
  | str s => rfl
  | arr l =>
    rw [h] at hu
    simp at hu
    simp only [List.any_eq_false, Bool.not_eq_true]
    intro x hx
    simp [hu.2 x hx]

/-- List `getD` at the length of the left part of an append. -/
theorem getD_append_len (H : List Message) (x : Message) (rest : List Message) :
    (H ++ x :: rest).getD H.length default = x := by
  induction H with
  | nil => rfl
  | cons h t ih => simpa using ih

/-- List `getD` one past the length of the left part of an append. -/
theorem getD_append_len_succ (H : List Message) (x y : Message) :
    (H ++ [x, y]).getD (H.length + 1) default = y := by
  induction H with
  | nil => rfl
  | cons h t ih => simpa using ih

/-- Dropping past the left part and one more element. -/
theorem drop_append_len_one (H : List Message) (x y : Message) :
    (H ++ [x, y]).drop (H.length + 1) = [y] := by
  induction H with
  | nil => rfl
  | cons h t ih => simp

/-- The backwards role scan over `H ++ [a, u]` finds `a` when `a` has an
assistant role and `u` does not. -/
theorem findLast_append_two (H : List Message) (a u : Message)
    (ha : isAssistantRole a = true) (hu : isAssistantRole u = false) :
    findLastAssistantIdx (H ++ [a, u]) = some H.length := by
  unfold findLastAssistantIdx
  have hlen : (H ++ [a, u]).length = H.length + 2 := by simp
  have hrev : (List.range (H.length + 2)).reverse =
      (H.length + 1) :: H.length :: (List.range H.length).reverse := by
    rw [List.range_succ, List.range_succ]
    simp
  rw [hlen, hrev]
  rw [List.find?_cons_of_neg]
  · rw [List.find?_cons_of_pos]
    rw [getD_append_len H a [u]]
    exact ha
  · rw [getD_append_len_succ H a u, hu]
    simp

/-- Taking the left part of an append plus one element. -/
theorem take_len_succ_append {α : Type} (L : List α) (x y : α) :
    (L ++ [x, y]).take (L.length + 1) = L ++ [x] := by
  induction L with
  | nil => rfl
  | cons h t ih => simp [ih]

/-- Dropping the left part of an append plus one element. -/
theorem drop_len_succ_append {α : Type} (L : List α) (x y : α) :
    (L ++ [x, y]).drop (L.length + 1) = [y] := by
  induction L with
  | nil => rfl
  | cons h t ih => simp

/-- More repair fixtures: a plain user message, an interrupted assistant
(tool_use only), an assistant whose tool_use is accompanied by a validly
signed thinking block, and a tool_result user message. -/
def plainUserMsg : Message :=
  { role := "user", content := .arr [some { type := some "text", text := some "hi" }] }

def interruptedAssistantMsg : Message :=
  { role := "assistant", content := .arr [some toolUseBlock] }

def signedAssistantMsg : Message :=
  { role := "assistant", content := .arr [some toolUseBlock, some signedThinkingBlock] }

def toolResultUserMsg : Message :=
  { role := "user", content := .arr [some toolResultBlock] }

/-- C1 counterexample: a history ending `assistant(tool_use) → user(plain)`
whose assistant message carries a validly signed thinking block.  The spec
gates the closure pass on `¬hasValidThinking`, so the integrity passes
leave the history unchanged: no synthetic assistant message is inserted and
the thinking block is not stripped — refuting the claim quantified over
EVERY such history. -/
theorem interrupted_tool_signed_cex :
    toolLoopClosurePass [signedAssistantMsg, plainUserMsg] =
        [signedAssistantMsg, plainUserMsg] ∧
      containsInterruptSynthetic [signedAssistantMsg, plainUserMsg] = false ∧
      messageHasToolUse signedAssistantMsg = true ∧
      isPlainUserMessage plainUserMsg = true ∧
      messageHasValidThinking signedAssistantMsg = true := by
  decide

/-- C1 (amended): for a history ending with an assistant tool_use message
followed by a plain user message, PROVIDED the assistant message has no
validly signed thinking block, the integrity passes strip all thinking
blocks from the whole history and insert the synthetic
`assistant[text:"[Tool call was interrupted.]"]` strictly between the two. -/
theorem interrupted_tool_insert (H : List Message) (a u : Message)
    (ha : isAssistantRole a = true)
    (htool : messageHasToolUse a = true)
    (hth : messageHasValidThinking a = false)
    (hu : isPlainUserMessage u = true) :
    toolLoopClosurePass (H ++ [a, u]) =
      (H ++ [a]).map stripMsg ++
        mkAssistantTextMsg "[Tool call was interrupted.]" :: [stripMsg u] := by
  have hu_role : isAssistantRole u = false := plain_user_not_assistant hu
  have hfind := findLast_append_two H a u ha hu_role
  have hur : messageHasToolResult u = false := plain_user_no_toolresult hu
  have hdrop : (H ++ [a, u]).drop (H.length + 1) = [u] := drop_append_len_one H a u
  have hget : (H ++ [a, u]).getD H.length default = a := getD_append_len H a [u]
  have hstate : analyzeConversationState (H ++ [a, u]) =
      ⟨false, true, false, 0, some H.length⟩ := by
    unfold analyzeConversationState
    have hne : (H ++ [a, u]).isEmpty = false := by simp
    simp only [hne, Bool.false_eq_true, if_false, hfind, hget, hdrop]
    simp [htool, hth, hur, hu]
  unfold toolLoopClosurePass needsThinkingRecovery
  rw [hstate]
  rw [if_pos (show ((false || true) && !false) = true from rfl)]
  unfold closeToolLoopForThinking
  rw [hstate]
  dsimp only
  rw [if_neg (by decide), if_pos rfl]
  have hsplit : stripAllThinkingBlocks (H ++ [a, u]) =
      List.map stripMsg H ++ [stripMsg a, stripMsg u] := by
    simp [stripAllThinkingBlocks]
  rw [hsplit]
  rw [show H.length = (List.map stripMsg H).length by simp]
  simp only [Option.getD_some]
  rw [take_len_succ_append, drop_len_succ_append]
  simp

/-- C1 witness: the synthetic interruption notice lands between the
stripped assistant and user messages of a concrete two-message history. -/
theorem interrupted_tool_insert_witness :
    toolLoopClosurePass ([] ++ [interruptedAssistantMsg, plainUserMsg]) =
      ([] ++ [interruptedAssistantMsg]).map stripMsg ++
        mkAssistantTextMsg "[Tool call was interrupted.]" :: [stripMsg plainUserMsg] :=
  interrupted_tool_insert [] interruptedAssistantMsg plainUserMsg (by decide) (by decide)
    (by decide) (by decide)

/-- C2 counterexample: a tool loop with exactly one tool_result.  The
closure appends `"[Tool execution completed.]"`, not the claimed
`"[1 tool executions completed.]"`. -/
theorem tool_loop_single_result_cex :
    closeToolLoopForThinking [interruptedAssistantMsg, toolResultUserMsg] =
        [interruptedAssistantMsg, toolResultUserMsg] ++
          [mkAssistantTextMsg "[Tool execution completed.]", mkUserTextMsg "[Continue]"] ∧
      (((([interruptedAssistantMsg, toolResultUserMsg] : List Message).drop 1).filter
          messageHasToolResult).length = 1) ∧
      "[Tool execution completed.]" ≠ "[1 tool executions completed.]" := by
  refine ⟨by decide, by decide, by decide⟩

/-- C2 (amended): in a tool loop (last assistant message has tool_use and
`N ≥ 1` tool_result messages follow) with no validly signed thinking block
in that assistant message, the closure pass strips all thinking blocks from
the whole history and appends exactly two messages:
`assistant[text:"[Tool execution completed.]"]` when `N = 1`, or
`assistant[text:"[N tool executions completed.]"]` when `N ≥ 2`, followed
by `user[text:"[Continue]"]`. -/
theorem tool_loop_closure_append (msgs : List Message) (i : Nat) (N : Nat)
    (hfind : findLastAssistantIdx msgs = some i)
    (htool : messageHasToolUse (msgs.getD i default) = true)
    (hth : messageHasValidThinking (msgs.getD i default) = false)
    (hN : ((msgs.drop (i + 1)).filter messageHasToolResult).length = N)
    (hN1 : 1 ≤ N) :
    closeToolLoopForThinking msgs =
      stripAllThinkingBlocks msgs ++
        [mkAssistantTextMsg
            (if N = 1 then "[Tool execution completed.]"
             else "[" ++ toString N ++ " tool executions completed.]"),
          mkUserTextMsg "[Continue]"] := by
  have hne : msgs.isEmpty = false := by
    cases msgs
    · simp [findLastAssistantIdx] at hfind
    · rfl
  have hbeq : (N == 0) = false := by
    simp
    omega
  have hstate : analyzeConversationState msgs =
      ⟨true, false, false, N, some i⟩ := by
    unfold analyzeConversationState
    simp only [hne, Bool.false_eq_true, if_false, hfind]
    simp only [hN, htool, hth, hbeq]
    simp [Nat.lt_of_lt_of_le Nat.zero_lt_one hN1]
  unfold closeToolLoopForThinking
  rw [hstate]
  by_cases h1 : N = 1
  · simp [h1]
  · have hb : (N == 1) = false := by simp [h1]
    simp [h1, hb]

/-- C2 witness: two tool_results yield the plural synthetic notice. -/
theorem tool_loop_closure_append_witness :
    closeToolLoopForThinking [interruptedAssistantMsg, toolResultUserMsg, toolResultUserMsg] =
      stripAllThinkingBlocks
          [interruptedAssistantMsg, toolResultUserMsg, toolResultUserMsg] ++
        [mkAssistantTextMsg
            (if 2 = 1 then "[Tool execution completed.]"
             else "[" ++ toString 2 ++ " tool executions completed.]"),
          mkUserTextMsg "[Continue]"] :=
  tool_loop_closure_append [interruptedAssistantMsg, toolResultUserMsg, toolResultUserMsg]
    0 2 (by decide) (by decide) (by decide) (by decide) (by decide)

/-! ### reorderAssistantContent idempotence (C7) -/

/-- Dropping nulls from an all-non-null array is the identity. -/
theorem filterMap_id_map_some (l : List Block) : (l.map some).filterMap id = l := by
  simp

/-- A thinking-bucket block is never kept in the text bucket. -/
theorem think_keep_false {b : Block} (h : isThinkClass b = true) : keepAsText b = false := by
  unfold keepAsText
  rw [h]
  rfl

/-- Sanitizing preserves the thinking bucket. -/
theorem sanitize_think {b : Block} (h : isThinkClass b = true) :
    isThinkClass (sanitizeAnthropicThinkingBlock b) = true := by
  unfold isThinkClass at h ⊢
  unfold sanitizeAnthropicThinkingBlock
  rcases Bool.or_eq_true_iff.mp h with h1 | h1
  · rw [h1]
    simp
  · by_cases h2 : b.type == some "thinking"
    · rw [h2]
      simp
    · simp only [h2, Bool.false_eq_true, if_false, h1, if_true]
      simp

/-- Sanitizing a thinking-bucket block is idempotent. -/
theorem sanitize_idem {b : Block} (h : isThinkClass b = true) :
    sanitizeAnthropicThinkingBlock (sanitizeAnthropicThinkingBlock b) =
      sanitizeAnthropicThinkingBlock b := by
  unfold isThinkClass at h
  unfold sanitizeAnthropicThinkingBlock
  by_cases h1 : b.type == some "thinking"
  · simp [h1]
  · rcases Bool.or_eq_true_iff.mp h with h2 | h2
    · exact absurd h2 h1
    · simp [h1, h2]

/-- A sanitized thinking-bucket block is not a tool_use block. -/
theorem sanitize_not_tool {b : Block} (h : isThinkClass b = true) :
    isToolUseType (sanitizeAnthropicThinkingBlock b) = false := by
  unfold isThinkClass at h
  unfold sanitizeAnthropicThinkingBlock isToolUseType
  by_cases h1 : b.type == some "thinking"
  · simp [h1]
  · simp only [h1, Bool.false_eq_true, if_false]
    rcases Bool.or_eq_true_iff.mp h with h2 | h2
    · exact absurd h2 h1
    · simp [h2]

/-- A text-bucket block is not in the thinking bucket. -/
theorem keep_not_think {b : Block} (h : keepAsText b = true) :
    isThinkClass b = false := by
  unfold keepAsText at h
  by_cases h1 : isThinkClass b
  · rw [h1] at h
    simp at h
  · simpa using h1

/-- A text-bucket block is not a tool_use block. -/
theorem keep_not_tool {b : Block} (h : keepAsText b = true) :
    isToolUseType b = false := by
  unfold keepAsText at h
  by_cases h1 : isThinkClass b
  · rw [h1] at h
    simp at h
  · by_cases h2 : isToolUseType b
    · rw [if_neg (by simp [h1]), h2] at h
      simp at h
    · simpa using h2

/-- A tool_use block is not in the thinking bucket. -/
theorem tool_not_think {b : Block} (h : isToolUseType b = true) :
    isThinkClass b = false := by
  unfold isToolUseType at h
  unfold isThinkClass
  have hb : b.type = some "tool_use" := by
    have := beq_iff_eq.mp h
    exact this
  simp [hb]

/-- A tool_use block is not kept in the text bucket. -/
theorem tool_not_keep {b : Block} (h : isToolUseType b = true) :
    keepAsText b = false := by
  unfold keepAsText
  rw [tool_not_think h]
  simp [h]

/-- Mapping a function that fixes every member is the identity. -/
theorem map_eq_self_of {α : Type} (l : List α) (f : α → α) (h : ∀ a ∈ l, f a = a) :
    l.map f = l := by
  induction l with
  | nil => rfl
  | cons a t ih =>
    rw [List.map_cons, h a (List.mem_cons_self a t),
      ih fun x hx => h x (List.mem_cons_of_mem a hx)]

/-- The general path written as an explicit three-bucket partition. -/
theorem reorderCore_eq (c : List (Option Block)) :
    reorderCore c =
      (((c.filterMap id).filter isThinkClass).map sanitizeAnthropicThinkingBlock ++
        (c.filterMap id).filter keepAsText ++
        (c.filterMap id).filter isToolUseType).map some := rfl

/-- The general reorder path fixes any already-partitioned array. -/
theorem reorderCore_fixpoint (blocks : List Block) :
    reorderCore
        (((blocks.filter isThinkClass).map sanitizeAnthropicThinkingBlock ++
            blocks.filter keepAsText ++ blocks.filter isToolUseType).map some) =
      ((blocks.filter isThinkClass).map sanitizeAnthropicThinkingBlock ++
          blocks.filter keepAsText ++ blocks.filter isToolUseType).map some := by
  set A := (blocks.filter isThinkClass).map sanitizeAnthropicThinkingBlock with hA
  set B := blocks.filter keepAsText with hB
  set C := blocks.filter isToolUseType with hC
  have hAmem : ∀ a ∈ A, ∃ b, isThinkClass b = true ∧ a = sanitizeAnthropicThinkingBlock b := by
    intro a ha
    rw [hA] at ha
    rcases List.mem_map.mp ha with ⟨b, hb, rfl⟩
    exact ⟨b, (List.mem_filter.mp hb).2, rfl⟩
  have hAthink : ∀ a ∈ A, isThinkClass a = true := by
    intro a ha
    rcases hAmem a ha with ⟨b, hb, rfl⟩
    exact sanitize_think hb
  have hBkeep : ∀ a ∈ B, keepAsText a = true := by
    intro a ha
    rw [hB] at ha
    exact (List.mem_filter.mp ha).2
  have hCtool : ∀ a ∈ C, isToolUseType a = true := by
    intro a ha
    rw [hC] at ha
    exact (List.mem_filter.mp ha).2
  have h1 : (A ++ B ++ C).filter isThinkClass = A := by
    have e1 : A.filter isThinkClass = A := List.filter_eq_self.mpr hAthink
    have e2 : B.filter isThinkClass = [] :=
      List.filter_eq_nil_iff.mpr fun a ha => by simp [keep_not_think (hBkeep a ha)]
    have e3 : C.filter isThinkClass = [] :=
      List.filter_eq_nil_iff.mpr fun a ha => by simp [tool_not_think (hCtool a ha)]
    rw [List.filter_append, List.filter_append, e1, e2, e3]
    simp
  have h2 : A.map sanitizeAnthropicThinkingBlock = A := by
    refine map_eq_self_of A sanitizeAnthropicThinkingBlock fun a ha => ?_
    rcases hAmem a ha with ⟨b, hb, rfl⟩
    exact sanitize_idem hb
  have h3 : (A ++ B ++ C).filter keepAsText = B := by
    have e1 : A.filter keepAsText = [] :=
      List.filter_eq_nil_iff.mpr fun a ha => by simp [think_keep_false (hAthink a ha)]
    have e2 : B.filter keepAsText = B := List.filter_eq_self.mpr hBkeep
    have e3 : C.filter keepAsText = [] :=
      List.filter_eq_nil_iff.mpr fun a ha => by simp [tool_not_keep (hCtool a ha)]
    rw [List.filter_append, List.filter_append, e1, e2, e3]
    simp
  have h4 : (A ++ B ++ C).filter isToolUseType = C := by
    have e1 : A.filter isToolUseType = [] := by
      refine List.filter_eq_nil_iff.mpr fun a ha => ?_
      rcases hAmem a ha with ⟨b, hb, rfl⟩
      simp [sanitize_not_tool hb]
    have e2 : B.filter isToolUseType = [] :=
      List.filter_eq_nil_iff.mpr fun a ha => by simp [keep_not_tool (hBkeep a ha)]
    have e3 : C.filter isToolUseType = C := List.filter_eq_self.mpr hCtool
    rw [List.filter_append, List.filter_append, e1, e2, e3]
    simp
  rw [reorderCore_eq, filterMap_id_map_some, h1, h2, h3, h4]

/-- Any thinking-bucket member of a partitioned array is already
sanitized. -/
theorem partition_mem_fix {blocks : List Block} {b : Block}
    (hb : b ∈ (blocks.filter isThinkClass).map sanitizeAnthropicThinkingBlock ++
        blocks.filter keepAsText ++ blocks.filter isToolUseType)
    (ht : isThinkClass b = true) : sanitizeAnthropicThinkingBlock b = b := by
  rcases List.mem_append.mp hb with hb' | hb'
  · rcases List.mem_append.mp hb' with hb'' | hb''
    · rcases List.mem_map.mp hb'' with ⟨b0, hb0, rfl⟩
      exact sanitize_idem (List.mem_filter.mp hb0).2
    · exact absurd ht (by simp [keep_not_think (List.mem_filter.mp hb'').2])
  · exact absurd ht (by simp [tool_not_think (List.mem_filter.mp hb').2])

/-- C7: `reorderAssistantContent` is idempotent: re-running the stable
partition `[thinking..., text..., tool_use...]` (with empty text blocks
dropped and thinking blocks sanitized) leaves its own output unchanged. -/
theorem reorderAssistantContent_idempotent (c : List (Option Block)) :
    reorderAssistantContent (reorderAssistantContent c) = reorderAssistantContent c := by
  match c with
  | [] => rfl
  | [item] =>
    match item with
    | none => rfl
    | some b =>
      by_cases hb : isThinkClass b
      · have h1 : reorderAssistantContent [some b] =
            [some (sanitizeAnthropicThinkingBlock b)] := by
          simp [reorderAssistantContent, hb]
        rw [h1]
        simp [reorderAssistantContent, sanitize_think hb, sanitize_idem hb]
      · have h1 : reorderAssistantContent [some b] = [some b] := by
          simp [reorderAssistantContent, hb]
        rw [h1, h1]
  | x :: y :: t =>
    have key := reorderCore_fixpoint ((x :: y :: t).filterMap id)
    have hcc : reorderAssistantContent (x :: y :: t) = reorderCore (x :: y :: t) := rfl
    rw [hcc, reorderCore_eq]
    generalize hL : ((((x :: y :: t).filterMap id).filter isThinkClass).map
        sanitizeAnthropicThinkingBlock ++
        ((x :: y :: t).filterMap id).filter keepAsText ++
        ((x :: y :: t).filterMap id).filter isToolUseType) = L at key ⊢
    match L with
    | [] => rfl
    | [b] =>
      by_cases hbt : isThinkClass b
      · have hmem : b ∈ ([b] : List Block) := List.mem_singleton_self b
        rw [← hL] at hmem
        have hfix := partition_mem_fix hmem hbt
        simp [reorderAssistantContent, hbt, hfix]
      · simp [reorderAssistantContent, hbt]
    | b1 :: b2 :: L' =>
      exact key
